import Mathlib

/-!
# Job lifecycle states of kube-batch: `Pending` and `Restarting`

A shallow embedding of `pkg/controllers/job/state/pending.go` and
`pkg/controllers/job/state/restarting.go`.

* Go's `int32` counters are mathematical integers (`Int`); the code only
  compares them, so no overflow can occur.
* `ps.job` is a pointer.  A pointer is an address (`JobRef`), and the objects
  it may point to live in a `Heap`.  The closures handed to `SyncJob` and
  `KillJob` read `ps.job.Job.Spec.MinAvailable` when they are *invoked*, so a
  closure is a function of the heap it is evaluated in.  The pointer is taken
  to be non-nil throughout.
* `SyncJob` and `KillJob` are package-level functions defined elsewhere; they
  are parameters of the semantics (`Collaborators`), free to change the whole
  world and to return any error.
* `Execute` is a program (`Prog`) that may call a collaborator any number of
  times; `Prog.run` executes it and records every call made.
-/

namespace vkv1

/-- Modelled from the spec: `vkv1.Action` is declared outside the given
sources; it is a string type, and "no action" is the empty string. -/
abbrev Action := String

/-- Modelled from the spec: the `Restart` action constant.  The values of the
three constants are declared outside the given sources; the development uses
only that they are distinct, non-empty strings. -/
def RestartJobAction : Action := "RestartJob"

/-- Modelled from the spec: the `Abort` action constant. -/
def AbortJobAction : Action := "AbortJob"

/-- Modelled from the spec: the `Complete` action constant. -/
def CompleteJobAction : Action := "CompleteJob"

/-- Modelled from the spec: the phases named by the two state files and by the
data model (`Pending`, `Running`, `Restarting`, `Aborting`, `Completing`,
`Completed`); the declaration itself is outside the given sources. -/
inductive JobPhase where
  | Pending
  | Aborting
  | Running
  | Restarting
  | Completing
  | Completed
  deriving DecidableEq, Repr

/-- Modelled from the spec: `vkv1.JobState`, the value a policy returns.  The
closures of both state files set `Phase` and leave everything else zero. -/
structure JobState where
  Phase : JobPhase
  deriving DecidableEq, Repr

/-- Modelled from the spec: `vkv1.JobStatus`, the current state together with
the task counters (`int32` in Go). -/
structure JobStatus where
  State : JobState
  Pending : Int
  Running : Int
  Succeeded : Int
  Failed : Int
  Terminating : Int
  deriving DecidableEq, Repr

/-- Modelled from the spec: the part of `vkv1.JobSpec` the states read. -/
structure JobSpec where
  MinAvailable : Int
  deriving DecidableEq, Repr

/-- Modelled from the spec: `vkv1.Job`, a specification and a mutable status. -/
structure Job where
  Name : String
  Spec : JobSpec
  Status : JobStatus
  deriving DecidableEq, Repr

end vkv1

namespace apis

/-- Modelled from the spec: `apis.JobInfo`, which holds the job (`Job` field). -/
structure JobInfo where
  Job : vkv1.Job
  deriving DecidableEq, Repr

end apis

namespace state

open vkv1

/-- The address held in a `*apis.JobInfo`. -/
abbrev JobRef := Nat

/-- The objects job pointers point to. -/
abbrev Heap := JobRef → apis.JobInfo

/-- Go: `func(status vkv1.JobStatus) vkv1.JobState`, a closure.  Its first
argument is the heap at the moment the closure is invoked. -/
abbrev UpdateStatusFn := Heap → JobStatus → JobState

/-- Everything a collaborator can read or change: the job objects and the
remaining environment (cluster, stores), of an arbitrary type `ω`. -/
structure World (ω : Type) where
  jobs : Heap
  ext : ω

/-- The two package-level functions a state may call. -/
inductive Callee where
  | SyncJob
  | KillJob
  deriving DecidableEq, Repr

/-- One call `SyncJob(job, fn)` or `KillJob(job, fn)`. -/
structure Call where
  callee : Callee
  job : JobRef
  fn : UpdateStatusFn

/-- The behaviour of `SyncJob` and `KillJob`: from the arguments and the world
to a Go `error` (`none` is `nil`) and the world after the call. -/
structure Collaborators (ω ε : Type) where
  SyncJob : JobRef → UpdateStatusFn → World ω → Option ε × World ω
  KillJob : JobRef → UpdateStatusFn → World ω → Option ε × World ω

/-- Perform a recorded call. -/
def Collaborators.invoke {ω ε : Type} (h : Collaborators ω ε) (c : Call) (w : World ω) :
    Option ε × World ω :=
  match c.callee with
  | Callee.SyncJob => h.SyncJob c.job c.fn w
  | Callee.KillJob => h.KillJob c.job c.fn w

/-- A function body returning `error`: it returns, or it calls a collaborator
and goes on with what the call returned. -/
inductive Prog (ε : Type) where
  | ret (err : Option ε) : Prog ε
  | call (c : Call) (k : Option ε → Prog ε) : Prog ε

/-- The outcome of running a body: the error returned, the world afterwards
and the collaborator calls made, in order. -/
structure Outcome (ω ε : Type) where
  err : Option ε
  world : World ω
  calls : List Call

/-- Run a body against given collaborators, from a given world. -/
def Prog.run {ω ε : Type} (h : Collaborators ω ε) : Prog ε → World ω → Outcome ω ε
  | Prog.ret e, w => { err := e, world := w, calls := [] }
  | Prog.call c k, w =>
    let r := h.invoke c w
    let o := Prog.run h (k r.1) r.2
    { err := o.err, world := o.world, calls := c :: o.calls }

/-- Go: `type pendingState struct { job *apis.JobInfo }`. -/
structure pendingState where
  job : JobRef

/-- Go: `type restartingState struct { job *apis.JobInfo }`. -/
structure restartingState where
  job : JobRef

/-- Go: `func (ps *pendingState) Execute(action vkv1.Action) error`
(pending.go:28-76).  The `switch` compares `action` with the constants in
order; every branch is `return F(ps.job, closure)`. -/
def pendingState.Execute {ε : Type} (ps : pendingState) (action : Action) : Prog ε :=
  if action = RestartJobAction then
    Prog.call
      { callee := Callee.KillJob
        job := ps.job
        fn := fun _ status =>
          let phase := JobPhase.Pending
          let phase := if status.Terminating ≠ 0 then JobPhase.Restarting else phase
          { Phase := phase } }
      Prog.ret
  else if action = AbortJobAction then
    Prog.call
      { callee := Callee.KillJob
        job := ps.job
        fn := fun _ status =>
          let phase := JobPhase.Pending
          let phase := if status.Terminating ≠ 0 then JobPhase.Aborting else phase
          { Phase := phase } }
      Prog.ret
  else if action = CompleteJobAction then
    Prog.call
      { callee := Callee.KillJob
        job := ps.job
        fn := fun _ status =>
          let phase := JobPhase.Completed
          let phase := if status.Terminating ≠ 0 then JobPhase.Completing else phase
          { Phase := phase } }
      Prog.ret
  else
    Prog.call
      { callee := Callee.SyncJob
        job := ps.job
        fn := fun heap status =>
          let phase := JobPhase.Pending
          let phase :=
            if (heap ps.job).Job.Spec.MinAvailable ≤ status.Running then JobPhase.Running
            else phase
          { Phase := phase } }
      Prog.ret

/-- Go: `func (ps *restartingState) Execute(action vkv1.Action) error`
(restarting.go:28-44).  `action` is not inspected. -/
def restartingState.Execute {ε : Type} (ps : restartingState) (_action : Action) : Prog ε :=
  Prog.call
    { callee := Callee.SyncJob
      job := ps.job
      fn := fun heap status =>
        let phase := JobPhase.Restarting
        let phase :=
          if status.Terminating = 0 then
            if status.Running ≥ (heap ps.job).Job.Spec.MinAvailable then JobPhase.Running
            else JobPhase.Pending
          else phase
        { Phase := phase } }
    Prog.ret

/-- A sample behaviour for both collaborators over a world whose environment
is one flag, "the store is failing".  With the flag set the call returns an
error and changes nothing; otherwise it evaluates the policy on the status of
the job and stores the resulting state in that status. -/
def commitJob (j : JobRef) (fn : UpdateStatusFn) (w : World Bool) : Option String × World Bool :=
  if w.ext then (some "update failed", w)
  else
    let info := w.jobs j
    let st := fn w.jobs info.Job.Status
    (none,
      { jobs := Function.update w.jobs j
          { Job := { Name := info.Job.Name, Spec := info.Job.Spec,
                     Status := { info.Job.Status with State := st } } }
        ext := w.ext })

/-- Sample collaborators: `SyncJob` and `KillJob` both behave as `commitJob`. -/
def sampleCollaborators : Collaborators Bool String :=
  { SyncJob := commitJob, KillJob := commitJob }

/-- A sample status: phase and the two counters the states read; the other
counters are zero. -/
def sampleStatus (phase : JobPhase) (running terminating : Int) : JobStatus :=
  { State := { Phase := phase }, Pending := 0, Running := running, Succeeded := 0,
    Failed := 0, Terminating := terminating }

/-- A sample world: every address holds the same job, with the given
`MinAvailable` and status; `failing` is the flag read by `commitJob`. -/
def sampleWorld (failing : Bool) (minAvailable : Int) (st : JobStatus) : World Bool :=
  { jobs := fun _ => { Job := { Name := "job", Spec := { MinAvailable := minAvailable },
                                Status := st } }
    ext := failing }

/-- The phase stored in the status of the job at address `j`. -/
def World.phaseOf {ω : Type} (w : World ω) (j : JobRef) : JobPhase :=
  (w.jobs j).Job.Status.State.Phase

/-- Sample collaborators that ignore the policy, change nothing and return
`nil`. -/
def idleCollaborators : Collaborators Unit String :=
  { SyncJob := fun _ _ w => (none, w), KillJob := fun _ _ w => (none, w) }

/-- A sample world for `idleCollaborators`: every address holds the same job. -/
def idleWorld (minAvailable : Int) (st : JobStatus) : World Unit :=
  { jobs := fun _ => { Job := { Name := "job", Spec := { MinAvailable := minAvailable },
                                Status := st } }
    ext := () }

end state

/-!
# The admission server: `createResponse` and `Serve`

A shallow embedding of `cmd/admission/app/server.go`, lines 76-122.

* Byte slices are lists of numbers; a nil slice is the empty list.
* A Go pointer that may be nil is an `Option`.  Dereferencing `nil` is the
  fault `Fault.nilDereference`, and a function that can fault returns `Except`.
* `createResponse` writes through its pointer argument `ar`, so its result
  holds both the review it returns and the contents of `*ar` afterwards.
* The deserializer, `ToAdmissionResponse` and `json.Marshal` are defined
  elsewhere; they are parameters (`Env`).  Logging is left out.
-/

namespace runtime

/-- Modelled from the spec: the library type `runtime.RawExtension`, an object
payload (raw bytes and an optional decoded object); `RawExtension{}` has
neither. -/
structure RawExtension where
  Raw : List Nat
  Object : Option String
  deriving DecidableEq, Repr

end runtime

namespace v1beta1

/-- Modelled from the spec: the library type `v1beta1.AdmissionRequest`; the
fields other than `UID`, `Object`, `OldObject` are kept as plain data. -/
structure AdmissionRequest where
  UID : String
  Kind : String
  Resource : String
  SubResource : String
  Name : String
  Namespace : String
  Operation : String
  UserInfo : String
  Object : runtime.RawExtension
  OldObject : runtime.RawExtension
  DryRun : Option Bool
  deriving DecidableEq, Repr

/-- Modelled from the spec: the library type `v1beta1.AdmissionResponse`, the
decision of an admission function. -/
structure AdmissionResponse where
  UID : String
  Allowed : Bool
  Result : Option String
  Patch : List Nat
  PatchType : Option String
  AuditAnnotations : List (String × String)
  deriving DecidableEq, Repr

/-- Modelled from the spec: the library type `v1beta1.AdmissionReview`;
`Request` and `Response` are pointers. -/
structure AdmissionReview where
  Kind : String
  APIVersion : String
  Request : Option AdmissionRequest
  Response : Option AdmissionResponse
  deriving DecidableEq, Repr

end v1beta1

namespace app

open v1beta1

/-- Go: `CONTENTTYPE = "Content-Type"` (server.go:39). -/
def CONTENTTYPE : String := "Content-Type"

/-- Go: `APPLICATIONJSON = "application/json"` (server.go:41). -/
def APPLICATIONJSON : String := "application/json"

/-- A run-time fault of the Go program. -/
inductive Fault where
  | nilDereference
  deriving DecidableEq, Repr

/-- Go: `http.Header`, a map from header names to their values; a name that is
not in the map has no values. -/
abbrev Header := String → List String

/-- Go: `Header.Get`: the first value of the name, or `""` when there is none.
(`Get` canonicalises the name; `"Content-Type"` is canonical already.) -/
def Header.Get (h : Header) (key : String) : String :=
  match h key with
  | [] => ""
  | v :: _ => v

/-- The part of `http.Request` that `Serve` reads.  `Body` is `none` for a nil
body, and otherwise what `ioutil.ReadAll` returns on it: the data, or an
error. -/
structure Request where
  Body : Option (Except String (List Nat))
  Header : Header

/-- The functions `Serve` calls that are defined outside the given sources.
`Decode` gives the error of `deserializer.Decode(body, nil, &ar)` (`none` is
`nil`) and the contents of `ar` afterwards; `ToAdmissionResponse` is
`admissioncontroller.ToAdmissionResponse`; `Marshal` is `json.Marshal`. -/
structure Env (ε : Type) where
  Decode : List Nat → Option ε × AdmissionReview
  ToAdmissionResponse : ε → Option AdmissionResponse
  Marshal : AdmissionReview → Except ε (List Nat)

/-- Go: `admissioncontroller.AdmitFunc`, the admission decision function. -/
abbrev AdmitFunc := AdmissionReview → Option AdmissionResponse

/-- What a call of `createResponse` leaves: the review it returns and the
contents of `*ar` after the call. -/
structure Created where
  response : AdmissionReview
  ar : AdmissionReview
  deriving DecidableEq, Repr

/-- Go: `func createResponse(reviewResponse *v1beta1.AdmissionResponse,
ar *v1beta1.AdmissionReview) v1beta1.AdmissionReview` (server.go:111-122). -/
def createResponse (reviewResponse : Option AdmissionResponse) (ar : AdmissionReview) :
    Except Fault Created := do
  let response : AdmissionReview :=
    { Kind := "", APIVersion := "", Request := none, Response := none }
  let response ←
    match reviewResponse with
    | some r =>
      -- response.Response = reviewResponse; response.Response.UID = ar.Request.UID
      match ar.Request with
      | none => Except.error Fault.nilDereference
      | some req => pure { response with Response := some { r with UID := req.UID } }
    | none => pure response
  -- ar.Request.Object = runtime.RawExtension{}
  let ar ←
    match ar.Request with
    | none => Except.error Fault.nilDereference
    | some req => pure { ar with Request := some { req with Object := { Raw := [], Object := none } } }
  -- ar.Request.OldObject = runtime.RawExtension{}
  let ar ←
    match ar.Request with
    | none => Except.error Fault.nilDereference
    | some req =>
      pure { ar with Request := some { req with OldObject := { Raw := [], Object := none } } }
  pure { response := response, ar := ar }

/-- What a call of `Serve` does: the reviews `admit` was invoked on, the byte
slices passed to `w.Write`, both in order, and the fault that ended the call,
if any. -/
structure Served where
  admitCalls : List AdmissionReview
  written : List (List Nat)
  fault : Option Fault
  deriving DecidableEq, Repr

/-- The local `body` of `Serve` after server.go:77-82. -/
def Request.readBody (r : Request) : List Nat :=
  match r.Body with
  | none => []
  | some (Except.error _) => []
  | some (Except.ok data) => data

/-- Go: `func Serve(w http.ResponseWriter, r *http.Request,
admit admissioncontroller.AdmitFunc)` (server.go:76-109).  The parameter
`admit` is named `admitFn` here. -/
def Serve {ε : Type} (env : Env ε) (r : Request) (admitFn : AdmitFunc) : Served :=
  let body := r.readBody
  let contentType := r.Header.Get CONTENTTYPE
  if contentType ≠ APPLICATIONJSON then
    { admitCalls := [], written := [], fault := none }
  else
    let decoded := env.Decode body
    let ar := decoded.2
    let step : Option AdmissionResponse × List AdmissionReview :=
      match decoded.1 with
      | some err => (env.ToAdmissionResponse err, [])
      | none => (admitFn ar, [ar])
    let reviewResponse := step.1
    match createResponse reviewResponse ar with
    | Except.error f => { admitCalls := step.2, written := [], fault := some f }
    | Except.ok created =>
      let resp : List Nat :=
        match env.Marshal created.response with
        | Except.error _ => []
        | Except.ok bytes => bytes
      { admitCalls := step.2, written := [resp], fault := none }

/-- A sample request object of a review. -/
def sampleRequest : AdmissionRequest :=
  { UID := "uid-1", Kind := "Job", Resource := "jobs", SubResource := "", Name := "j1",
    Namespace := "default", Operation := "CREATE", UserInfo := "admin",
    Object := { Raw := [123, 125], Object := none },
    OldObject := { Raw := [1], Object := some "old" }, DryRun := none }

/-- A sample review with a request and no response. -/
def sampleReview : AdmissionReview :=
  { Kind := "AdmissionReview", APIVersion := "admission.k8s.io/v1beta1",
    Request := some sampleRequest, Response := none }

/-- A sample decision: allowed, with a patch. -/
def sampleDecision : AdmissionResponse :=
  { UID := "", Allowed := true, Result := none, Patch := [7], PatchType := some "JSONPatch",
    AuditAnnotations := [] }

/-- A sample environment.  A body starting with the byte `123` decodes to
`sampleReview`; any other body fails to decode and leaves the review zero.
The error response denies with the error as message.  Marshalling gives one
byte, `1` for an allowing response and `0` otherwise. -/
def sampleEnv : Env String :=
  { Decode := fun body =>
      match body with
      | 123 :: _ => (none, sampleReview)
      | _ => (some "couldn't get version/kind",
              { Kind := "", APIVersion := "", Request := none, Response := none })
    ToAdmissionResponse := fun err =>
      some { UID := "", Allowed := false, Result := some err, Patch := [], PatchType := none,
             AuditAnnotations := [] }
    Marshal := fun rv =>
      match rv.Response with
      | some resp => Except.ok [if resp.Allowed then 1 else 0]
      | none => Except.ok [0] }

/-- A sample admission function: always `sampleDecision`. -/
def sampleAdmit : AdmitFunc := fun _ => some sampleDecision

/-- A sample HTTP request: the given body, and the given values of the
`Content-Type` header (no other header). -/
def sampleHTTP (body : List Nat) (contentType : List String) : Request :=
  { Body := some (Except.ok body)
    Header := fun key => if key = "Content-Type" then contentType else [] }

end app

namespace state

open vkv1

/-- C1. Pending state, Restart action: against every collaborator behaviour and
from every world, `Execute(RestartJobAction)` makes exactly one call, it is to
`KillJob` (not `SyncJob`) with the state's job, and the policy passed returns
`Pending` on a status with `Terminating = 0` and `Restarting` on every other
status, in any heap (so for any `MinAvailable`) and for any values of the
other counters. -/
theorem pending_restart_calls_KillJob {ω ε : Type} (ps : pendingState)
    (h : Collaborators ω ε) (w : World ω) :
    ((ps.Execute RestartJobAction : Prog ε).run h w).calls.map Call.callee = [Callee.KillJob] ∧
    ((ps.Execute RestartJobAction : Prog ε).run h w).calls.map Call.job = [ps.job] ∧
    ∀ c ∈ ((ps.Execute RestartJobAction : Prog ε).run h w).calls,
      ∀ (heap : Heap) (s : JobStatus),
        (c.fn heap s).Phase
          = if s.Terminating = 0 then JobPhase.Pending else JobPhase.Restarting := by
  refine ⟨?_, ?_, ?_⟩
  · simp [pendingState.Execute, Prog.run]
  · simp [pendingState.Execute, Prog.run]
  · intro c hc heap s
    simp [pendingState.Execute, Prog.run] at hc
    subst hc
    by_cases hs : s.Terminating = 0 <;> simp [hs]

/-- C2. Pending state, Complete action: `Execute(CompleteJobAction)` makes
exactly one call, to `KillJob` with the state's job, and the policy passed
returns `Completed` on a status with `Terminating = 0` and `Completing` on
every other status; so it returns `Completed` only when nothing is
terminating. -/
theorem pending_complete_calls_KillJob {ω ε : Type} (ps : pendingState)
    (h : Collaborators ω ε) (w : World ω) :
    ((ps.Execute CompleteJobAction : Prog ε).run h w).calls.map Call.callee = [Callee.KillJob] ∧
    ((ps.Execute CompleteJobAction : Prog ε).run h w).calls.map Call.job = [ps.job] ∧
    ∀ c ∈ ((ps.Execute CompleteJobAction : Prog ε).run h w).calls,
      ∀ (heap : Heap) (s : JobStatus),
        ((c.fn heap s).Phase
          = if s.Terminating = 0 then JobPhase.Completed else JobPhase.Completing) ∧
        ((c.fn heap s).Phase = JobPhase.Completed ↔ s.Terminating = 0) := by
  have hA : CompleteJobAction ≠ RestartJobAction := by decide
  have hB : CompleteJobAction ≠ AbortJobAction := by decide
  refine ⟨?_, ?_, ?_⟩
  · simp [pendingState.Execute, Prog.run, hA, hB]
  · simp [pendingState.Execute, Prog.run, hA, hB]
  · intro c hc heap s
    simp [pendingState.Execute, Prog.run, hA, hB] at hc
    subst hc
    by_cases hs : s.Terminating = 0 <;> simp [hs]

/-- C3. Pending state, Abort action: `Execute(AbortJobAction)` makes exactly one
call, to `KillJob` with the state's job, and the policy passed returns
`Pending` on a status with `Terminating = 0` and `Aborting` on every other
status. -/
theorem pending_abort_calls_KillJob {ω ε : Type} (ps : pendingState)
    (h : Collaborators ω ε) (w : World ω) :
    ((ps.Execute AbortJobAction : Prog ε).run h w).calls.map Call.callee = [Callee.KillJob] ∧
    ((ps.Execute AbortJobAction : Prog ε).run h w).calls.map Call.job = [ps.job] ∧
    ∀ c ∈ ((ps.Execute AbortJobAction : Prog ε).run h w).calls,
      ∀ (heap : Heap) (s : JobStatus),
        (c.fn heap s).Phase
          = if s.Terminating = 0 then JobPhase.Pending else JobPhase.Aborting := by
  have hA : AbortJobAction ≠ RestartJobAction := by decide
  refine ⟨?_, ?_, ?_⟩
  · simp [pendingState.Execute, Prog.run, hA]
  · simp [pendingState.Execute, Prog.run, hA]
  · intro c hc heap s
    simp [pendingState.Execute, Prog.run, hA] at hc
    subst hc
    by_cases hs : s.Terminating = 0 <;> simp [hs]

/-- C4. Pending state, default path: for every action other than the three
recognised ones, `Execute` makes exactly one call, to `SyncJob` (not
`KillJob`) with the state's job, and the policy passed returns `Running`
exactly when the job's `MinAvailable` is at most `status.Running`, and
`Pending` otherwise. -/
theorem pending_default_calls_SyncJob {ω ε : Type} (ps : pendingState) (action : Action)
    (hR : action ≠ RestartJobAction) (hA : action ≠ AbortJobAction)
    (hC : action ≠ CompleteJobAction) (h : Collaborators ω ε) (w : World ω) :
    ((ps.Execute action : Prog ε).run h w).calls.map Call.callee = [Callee.SyncJob] ∧
    ((ps.Execute action : Prog ε).run h w).calls.map Call.job = [ps.job] ∧
    ∀ c ∈ ((ps.Execute action : Prog ε).run h w).calls,
      ∀ (heap : Heap) (s : JobStatus),
        ((c.fn heap s).Phase = JobPhase.Running
          ↔ (heap ps.job).Job.Spec.MinAvailable ≤ s.Running) ∧
        ((c.fn heap s).Phase
          = if (heap ps.job).Job.Spec.MinAvailable ≤ s.Running then JobPhase.Running
            else JobPhase.Pending) := by
  refine ⟨?_, ?_, ?_⟩
  · simp [pendingState.Execute, Prog.run, hR, hA, hC]
  · simp [pendingState.Execute, Prog.run, hR, hA, hC]
  · intro c hc heap s
    simp [pendingState.Execute, Prog.run, hR, hA, hC] at hc
    subst hc
    by_cases hs : (heap ps.job).Job.Spec.MinAvailable ≤ s.Running <;> simp [hs]

/-- Scenario A, an instance of C4: the empty action, `MinAvailable = 3` and
status `Running = 3`, `Terminating = 0`; the policy of the single `SyncJob`
call returns `Running`, and the sample collaborator commits `Running`. -/
theorem pending_default_calls_SyncJob_witness :
    (("" : Action) ≠ RestartJobAction ∧ ("" : Action) ≠ AbortJobAction ∧
      ("" : Action) ≠ CompleteJobAction) ∧
    (∀ c ∈ (((pendingState.mk 0).Execute "" : Prog String).run sampleCollaborators
          (sampleWorld false 3 (sampleStatus JobPhase.Pending 3 0))).calls,
      (c.fn (sampleWorld false 3 (sampleStatus JobPhase.Pending 3 0)).jobs
          (sampleStatus JobPhase.Pending 3 0)).Phase = JobPhase.Running) ∧
    (((pendingState.mk 0).Execute "" : Prog String).run sampleCollaborators
        (sampleWorld false 3 (sampleStatus JobPhase.Pending 3 0))).world.phaseOf 0
      = JobPhase.Running :=
  ⟨by decide,
   fun c hc =>
    (((pending_default_calls_SyncJob (pendingState.mk 0) "" (by decide) (by decide) (by decide)
      sampleCollaborators (sampleWorld false 3 (sampleStatus JobPhase.Pending 3 0))).2.2 c hc
      (sampleWorld false 3 (sampleStatus JobPhase.Pending 3 0)).jobs
      (sampleStatus JobPhase.Pending 3 0)).1).2 (by decide),
   by decide⟩

/-- C5. Restarting state, wait gate: for every action and every status with
`Terminating ≠ 0`, `Execute` makes exactly one call, to `SyncJob` (not
`KillJob`) with the state's job, and the policy passed returns `Restarting`
on that status, in any heap (so for any `MinAvailable`) and for any
`Running`. -/
theorem restarting_waits_while_terminating {ω ε : Type} (rs : restartingState)
    (action : Action) (s : JobStatus) (hs : s.Terminating ≠ 0)
    (h : Collaborators ω ε) (w : World ω) :
    ((rs.Execute action : Prog ε).run h w).calls.map Call.callee = [Callee.SyncJob] ∧
    ((rs.Execute action : Prog ε).run h w).calls.map Call.job = [rs.job] ∧
    ∀ c ∈ ((rs.Execute action : Prog ε).run h w).calls,
      ∀ heap : Heap, (c.fn heap s).Phase = JobPhase.Restarting := by
  refine ⟨?_, ?_, ?_⟩
  · simp [restartingState.Execute, Prog.run]
  · simp [restartingState.Execute, Prog.run]
  · intro c hc heap
    simp [restartingState.Execute, Prog.run] at hc
    subst hc
    simp [hs]

/-- An instance of C5: the Restart action, `MinAvailable = 3`, status
`Running = 4`, `Terminating = 2`; the policy returns `Restarting` and the
sample collaborator leaves the job `Restarting`. -/
theorem restarting_waits_while_terminating_witness :
    (sampleStatus JobPhase.Restarting 4 2).Terminating ≠ 0 ∧
    (∀ c ∈ (((restartingState.mk 0).Execute RestartJobAction : Prog String).run
          sampleCollaborators
          (sampleWorld false 3 (sampleStatus JobPhase.Restarting 4 2))).calls,
      (c.fn (sampleWorld false 3 (sampleStatus JobPhase.Restarting 4 2)).jobs
          (sampleStatus JobPhase.Restarting 4 2)).Phase = JobPhase.Restarting) ∧
    (((restartingState.mk 0).Execute RestartJobAction : Prog String).run sampleCollaborators
        (sampleWorld false 3 (sampleStatus JobPhase.Restarting 4 2))).world.phaseOf 0
      = JobPhase.Restarting :=
  ⟨by decide,
   fun c hc =>
    (restarting_waits_while_terminating (restartingState.mk 0) RestartJobAction
      (sampleStatus JobPhase.Restarting 4 2) (by decide) sampleCollaborators
      (sampleWorld false 3 (sampleStatus JobPhase.Restarting 4 2))).2.2 c hc
      (sampleWorld false 3 (sampleStatus JobPhase.Restarting 4 2)).jobs,
   by decide⟩

/-- C6. Restarting state, exit decision: for every action and every status with
`Terminating = 0`, the policy of every call `Execute` makes (it is passed to
`SyncJob`) returns `Running` when `status.Running ≥ MinAvailable` and
`Pending` when `status.Running < MinAvailable`. -/
theorem restarting_exit_decision {ω ε : Type} (rs : restartingState)
    (action : Action) (s : JobStatus) (hs : s.Terminating = 0)
    (h : Collaborators ω ε) (w : World ω) :
    ((rs.Execute action : Prog ε).run h w).calls.map Call.callee = [Callee.SyncJob] ∧
    ∀ c ∈ ((rs.Execute action : Prog ε).run h w).calls,
      ∀ heap : Heap,
        (s.Running ≥ (heap rs.job).Job.Spec.MinAvailable →
          (c.fn heap s).Phase = JobPhase.Running) ∧
        (s.Running < (heap rs.job).Job.Spec.MinAvailable →
          (c.fn heap s).Phase = JobPhase.Pending) := by
  refine ⟨?_, ?_⟩
  · simp [restartingState.Execute, Prog.run]
  · intro c hc heap
    simp [restartingState.Execute, Prog.run] at hc
    subst hc
    constructor
    · intro hr
      simp [hs, hr]
    · intro hr
      have hn : ¬ (heap rs.job).Job.Spec.MinAvailable ≤ s.Running := not_le.mpr hr
      simp [hs, hn]

/-- Scenario C, an instance of C6: `MinAvailable = 3`, status `Running = 4`,
`Terminating = 0`, any action (here Abort); the policy returns `Running` and
the sample collaborator commits `Running`. -/
theorem restarting_exit_decision_witness :
    (sampleStatus JobPhase.Restarting 4 0).Terminating = 0 ∧
    (∀ c ∈ (((restartingState.mk 0).Execute AbortJobAction : Prog String).run
          sampleCollaborators
          (sampleWorld false 3 (sampleStatus JobPhase.Restarting 4 0))).calls,
      (c.fn (sampleWorld false 3 (sampleStatus JobPhase.Restarting 4 0)).jobs
          (sampleStatus JobPhase.Restarting 4 0)).Phase = JobPhase.Running) ∧
    (((restartingState.mk 0).Execute AbortJobAction : Prog String).run sampleCollaborators
        (sampleWorld false 3 (sampleStatus JobPhase.Restarting 4 0))).world.phaseOf 0
      = JobPhase.Running :=
  ⟨by decide,
   fun c hc =>
    ((restarting_exit_decision (restartingState.mk 0) AbortJobAction
      (sampleStatus JobPhase.Restarting 4 0) (by decide) sampleCollaborators
      (sampleWorld false 3 (sampleStatus JobPhase.Restarting 4 0))).2 c hc
      (sampleWorld false 3 (sampleStatus JobPhase.Restarting 4 0)).jobs).1 (by decide),
   by decide⟩

/-- C7. Error propagation: for both states, every action, every collaborator
behaviour and every world, `Execute` makes exactly one call `c` (no second
call, so no retry), and the error it returns is the very value that call
returned (`nil` exactly when the call returned `nil`, otherwise the same
error); the world after `Execute` is the world that call left. -/
theorem execute_returns_the_call_result {ω ε : Type} (ps : pendingState)
    (rs : restartingState) (action : Action) (h : Collaborators ω ε) (w : World ω) :
    (∃ c : Call,
      ((ps.Execute action : Prog ε).run h w).calls = [c] ∧
      ((ps.Execute action : Prog ε).run h w).err = (h.invoke c w).1 ∧
      ((ps.Execute action : Prog ε).run h w).world = (h.invoke c w).2) ∧
    (∃ c : Call,
      ((rs.Execute action : Prog ε).run h w).calls = [c] ∧
      ((rs.Execute action : Prog ε).run h w).err = (h.invoke c w).1 ∧
      ((rs.Execute action : Prog ε).run h w).world = (h.invoke c w).2) := by
  constructor
  · unfold pendingState.Execute
    split_ifs <;> exact ⟨_, rfl, rfl, rfl⟩
  · exact ⟨_, rfl, rfl, rfl⟩

/-- C8. Atomicity on failure: if `SyncJob` and `KillJob` leave the phase of the
job they are given unchanged whenever they return an error, then for both
states, every action and every world, whenever `Execute` returns an error the
phase of the state's job after `Execute` equals its phase before. -/
theorem execute_error_keeps_phase {ω ε : Type} (h : Collaborators ω ε)
    (hSync : ∀ (j : JobRef) (f : UpdateStatusFn) (w : World ω),
      (h.SyncJob j f w).1 ≠ none → (h.SyncJob j f w).2.phaseOf j = w.phaseOf j)
    (hKill : ∀ (j : JobRef) (f : UpdateStatusFn) (w : World ω),
      (h.KillJob j f w).1 ≠ none → (h.KillJob j f w).2.phaseOf j = w.phaseOf j)
    (ps : pendingState) (rs : restartingState) (action : Action) (w : World ω) :
    (((ps.Execute action : Prog ε).run h w).err ≠ none →
      ((ps.Execute action : Prog ε).run h w).world.phaseOf ps.job = w.phaseOf ps.job) ∧
    (((rs.Execute action : Prog ε).run h w).err ≠ none →
      ((rs.Execute action : Prog ε).run h w).world.phaseOf rs.job = w.phaseOf rs.job) := by
  constructor
  · unfold pendingState.Execute
    split_ifs
    · exact hKill _ _ w
    · exact hKill _ _ w
    · exact hKill _ _ w
    · exact hSync _ _ w
  · exact hSync _ _ w

/-- The sample collaborator changes nothing when it returns an error. -/
theorem commitJob_error_keeps_phase (j : JobRef) (f : UpdateStatusFn) (w : World Bool)
    (he : (commitJob j f w).1 ≠ none) : (commitJob j f w).2.phaseOf j = w.phaseOf j := by
  unfold commitJob at he ⊢
  split_ifs with hx
  · rfl
  · simp [hx] at he

/-- An instance of C8: the store is failing, the job is `Pending` with
`MinAvailable = 3`, `Running = 3`; `Execute` with the empty action returns an
error and the job is still `Pending` (a successful call would have made it
`Running`). -/
theorem execute_error_keeps_phase_witness :
    (((pendingState.mk 0).Execute "" : Prog String).run sampleCollaborators
        (sampleWorld true 3 (sampleStatus JobPhase.Pending 3 0))).err ≠ none ∧
    (((pendingState.mk 0).Execute "" : Prog String).run sampleCollaborators
        (sampleWorld true 3 (sampleStatus JobPhase.Pending 3 0))).world.phaseOf 0
      = JobPhase.Pending :=
  ⟨by decide,
   (execute_error_keeps_phase sampleCollaborators commitJob_error_keeps_phase
      commitJob_error_keeps_phase (pendingState.mk 0) (restartingState.mk 0) ""
      (sampleWorld true 3 (sampleStatus JobPhase.Pending 3 0))).1 (by decide)⟩

/-- C9. Unrecognized action equals no action: for any two actions that are
each none of Restart, Abort, Complete, `pendingState.Execute` has the same
outcome on both (the same calls with the same policies, the same returned
error, the same final world) against every collaborator behaviour and from
every world, and it returns `nil` whenever the calls it made returned `nil`;
for `restartingState.Execute` the same holds for any two actions at all. -/
theorem unrecognized_action_is_no_action {ω ε : Type} (ps : pendingState)
    (rs : restartingState) (a b a2 b2 : Action)
    (haR : a ≠ RestartJobAction) (haA : a ≠ AbortJobAction) (haC : a ≠ CompleteJobAction)
    (hbR : b ≠ RestartJobAction) (hbA : b ≠ AbortJobAction) (hbC : b ≠ CompleteJobAction)
    (h : Collaborators ω ε) (w : World ω) :
    ((ps.Execute a : Prog ε).run h w = (ps.Execute b : Prog ε).run h w ∧
      ((∀ c ∈ ((ps.Execute a : Prog ε).run h w).calls, (h.invoke c w).1 = none) →
        ((ps.Execute a : Prog ε).run h w).err = none)) ∧
    ((rs.Execute a2 : Prog ε).run h w = (rs.Execute b2 : Prog ε).run h w ∧
      ((∀ c ∈ ((rs.Execute a2 : Prog ε).run h w).calls, (h.invoke c w).1 = none) →
        ((rs.Execute a2 : Prog ε).run h w).err = none)) := by
  refine ⟨⟨?_, ?_⟩, ⟨rfl, ?_⟩⟩
  · simp [pendingState.Execute, haR, haA, haC, hbR, hbA, hbC]
  · intro hc
    simp only [pendingState.Execute, haR, haA, haC, if_false, Prog.run] at hc ⊢
    exact hc _ (List.mem_singleton.mpr rfl)
  · intro hc
    simp only [restartingState.Execute, Prog.run] at hc ⊢
    exact hc _ (List.mem_singleton.mpr rfl)

/-- An instance of C9: in the Pending state the empty action and the action
`"Resume"` have the same outcome, and in the Restarting state Restart and
Complete have the same outcome, from a `Pending` job with `MinAvailable = 3`,
`Running = 3`. -/
theorem unrecognized_action_is_no_action_witness :
    ((("" : Action) ≠ RestartJobAction ∧ ("" : Action) ≠ AbortJobAction ∧
        ("" : Action) ≠ CompleteJobAction) ∧
      (("Resume" : Action) ≠ RestartJobAction ∧ ("Resume" : Action) ≠ AbortJobAction ∧
        ("Resume" : Action) ≠ CompleteJobAction)) ∧
    (((pendingState.mk 0).Execute "" : Prog String).run sampleCollaborators
        (sampleWorld false 3 (sampleStatus JobPhase.Pending 3 0))
      = ((pendingState.mk 0).Execute "Resume" : Prog String).run sampleCollaborators
        (sampleWorld false 3 (sampleStatus JobPhase.Pending 3 0))) ∧
    (((restartingState.mk 0).Execute RestartJobAction : Prog String).run sampleCollaborators
        (sampleWorld false 3 (sampleStatus JobPhase.Pending 3 0))
      = ((restartingState.mk 0).Execute CompleteJobAction : Prog String).run
        sampleCollaborators (sampleWorld false 3 (sampleStatus JobPhase.Pending 3 0))) :=
  ⟨by decide,
   (unrecognized_action_is_no_action (pendingState.mk 0) (restartingState.mk 0) "" "Resume"
      RestartJobAction CompleteJobAction (by decide) (by decide) (by decide) (by decide)
      (by decide) (by decide) sampleCollaborators
      (sampleWorld false 3 (sampleStatus JobPhase.Pending 3 0))).1.1,
   (unrecognized_action_is_no_action (pendingState.mk 0) (restartingState.mk 0) "" "Resume"
      RestartJobAction CompleteJobAction (by decide) (by decide) (by decide) (by decide)
      (by decide) (by decide) sampleCollaborators
      (sampleWorld false 3 (sampleStatus JobPhase.Pending 3 0))).2.1⟩

/-- C10. Determinism of the target phase: for each state there is a function
`g` of the action, `MinAvailable` and the status snapshot alone such that the
policy of every call `Execute` makes returns the phase `g action MinAvailable
status`, whatever the state's job address, the rest of the heap, the
collaborators and the world are; hence for two successive `Execute` calls with
the same action, the policies handed over agree on every snapshot when
evaluated in heaps that give the job the same `MinAvailable`. -/
theorem target_phase_is_deterministic :
    (∃ g : Action → Int → JobStatus → JobPhase,
      ∀ (ω ε : Type) (ps : pendingState) (action : Action) (h : Collaborators ω ε)
        (w : World ω),
        ∀ c ∈ ((ps.Execute action : Prog ε).run h w).calls,
          ∀ (heap : Heap) (s : JobStatus),
            (c.fn heap s).Phase = g action (heap ps.job).Job.Spec.MinAvailable s) ∧
    (∃ g : Action → Int → JobStatus → JobPhase,
      ∀ (ω ε : Type) (rs : restartingState) (action : Action) (h : Collaborators ω ε)
        (w : World ω),
        ∀ c ∈ ((rs.Execute action : Prog ε).run h w).calls,
          ∀ (heap : Heap) (s : JobStatus),
            (c.fn heap s).Phase = g action (heap rs.job).Job.Spec.MinAvailable s) ∧
    (∀ (ω ε : Type) (ps : pendingState) (action : Action) (h : Collaborators ω ε)
      (w : World ω) (heap1 heap2 : Heap) (s : JobStatus),
      (heap1 ps.job).Job.Spec.MinAvailable = (heap2 ps.job).Job.Spec.MinAvailable →
      ∀ c1 ∈ ((ps.Execute action : Prog ε).run h w).calls,
        ∀ c2 ∈ ((ps.Execute action : Prog ε).run h
            ((ps.Execute action : Prog ε).run h w).world).calls,
          (c1.fn heap1 s).Phase = (c2.fn heap2 s).Phase) ∧
    (∀ (ω ε : Type) (rs : restartingState) (action : Action) (h : Collaborators ω ε)
      (w : World ω) (heap1 heap2 : Heap) (s : JobStatus),
      (heap1 rs.job).Job.Spec.MinAvailable = (heap2 rs.job).Job.Spec.MinAvailable →
      ∀ c1 ∈ ((rs.Execute action : Prog ε).run h w).calls,
        ∀ c2 ∈ ((rs.Execute action : Prog ε).run h
            ((rs.Execute action : Prog ε).run h w).world).calls,
          (c1.fn heap1 s).Phase = (c2.fn heap2 s).Phase) := by
  refine ⟨⟨fun action m s =>
      if action = RestartJobAction then
        (if s.Terminating = 0 then JobPhase.Pending else JobPhase.Restarting)
      else if action = AbortJobAction then
        (if s.Terminating = 0 then JobPhase.Pending else JobPhase.Aborting)
      else if action = CompleteJobAction then
        (if s.Terminating = 0 then JobPhase.Completed else JobPhase.Completing)
      else (if m ≤ s.Running then JobPhase.Running else JobPhase.Pending), ?_⟩,
    ⟨fun _ m s =>
      if s.Terminating = 0 then
        (if m ≤ s.Running then JobPhase.Running else JobPhase.Pending)
      else JobPhase.Restarting, ?_⟩, ?_, ?_⟩
  · intro ω ε ps action h w c hc heap s
    unfold pendingState.Execute at hc
    split_ifs at hc with h1 h2 h3 <;>
      simp only [Prog.run, List.mem_singleton] at hc <;> subst hc
    · beta_reduce
      rw [if_pos h1]
      by_cases ht : s.Terminating = 0 <;> simp [ht]
    · beta_reduce
      rw [if_neg h1, if_pos h2]
      by_cases ht : s.Terminating = 0 <;> simp [ht]
    · beta_reduce
      rw [if_neg h1, if_neg h2, if_pos h3]
      by_cases ht : s.Terminating = 0 <;> simp [ht]
    · beta_reduce
      rw [if_neg h1, if_neg h2, if_neg h3]
  · intro ω ε rs action h w c hc heap s
    simp only [restartingState.Execute, Prog.run, List.mem_singleton] at hc
    subst hc
    simp
  · intro ω ε ps action h w heap1 heap2 s hm c1 hc1 c2 hc2
    unfold pendingState.Execute at hc1 hc2
    split_ifs at hc1 hc2 <;>
      simp only [Prog.run, List.mem_singleton] at hc1 hc2 <;> subst hc1 <;> subst hc2
    · rfl
    · rfl
    · rfl
    · simp [hm]
  · intro ω ε rs action h w heap1 heap2 s hm c1 hc1 c2 hc2
    simp only [restartingState.Execute, Prog.run, List.mem_singleton] at hc1 hc2
    subst hc1
    subst hc2
    simp [hm]

/-- An instance of C10: the empty action is executed twice in the Pending
state; the first call commits `Running`, so the heap has changed, but
`MinAvailable` is still 3 and both policies return `Running` on the snapshot
`Running = 3`, `Terminating = 0`. -/
theorem target_phase_is_deterministic_witness :
    ∀ c1 ∈ (((pendingState.mk 0).Execute "" : Prog String).run sampleCollaborators
        (sampleWorld false 3 (sampleStatus JobPhase.Pending 3 0))).calls,
      ∀ c2 ∈ (((pendingState.mk 0).Execute "" : Prog String).run sampleCollaborators
          (((pendingState.mk 0).Execute "" : Prog String).run sampleCollaborators
            (sampleWorld false 3 (sampleStatus JobPhase.Pending 3 0))).world).calls,
        (c1.fn (sampleWorld false 3 (sampleStatus JobPhase.Pending 3 0)).jobs
            (sampleStatus JobPhase.Pending 3 0)).Phase
          = (c2.fn (((pendingState.mk 0).Execute "" : Prog String).run sampleCollaborators
              (sampleWorld false 3 (sampleStatus JobPhase.Pending 3 0))).world.jobs
            (sampleStatus JobPhase.Pending 3 0)).Phase :=
  target_phase_is_deterministic.2.2.1 Bool String (pendingState.mk 0) "" sampleCollaborators
    (sampleWorld false 3 (sampleStatus JobPhase.Pending 3 0))
    (sampleWorld false 3 (sampleStatus JobPhase.Pending 3 0)).jobs
    (((pendingState.mk 0).Execute "" : Prog String).run sampleCollaborators
      (sampleWorld false 3 (sampleStatus JobPhase.Pending 3 0))).world.jobs
    (sampleStatus JobPhase.Pending 3 0) (by decide)

/-- The default branch of `pendingState.Execute`, taken by every action that
is none of the three constants: `return SyncJob(ps.job, closure)`. -/
theorem pendingState_Execute_default {ε : Type} (ps : pendingState) (a : Action)
    (haR : a ≠ RestartJobAction) (haA : a ≠ AbortJobAction) (haC : a ≠ CompleteJobAction) :
    (ps.Execute a : Prog ε)
      = Prog.call
          { callee := Callee.SyncJob
            job := ps.job
            fn := fun heap status =>
              { Phase :=
                  if (heap ps.job).Job.Spec.MinAvailable ≤ status.Running then JobPhase.Running
                  else JobPhase.Pending } }
          Prog.ret := by
  simp only [pendingState.Execute, haR, haA, haC, if_false]

/-- C11. Consistent readiness test: for one job, `pendingState.Execute` on its
default path and `restartingState.Execute` (any action) each make exactly one
call, both to `SyncJob`, and on every status with `Terminating = 0` the two
policies handed over return the same phase in every heap: `Running` when the
job's `MinAvailable` is at most `status.Running`, and `Pending` otherwise. -/
theorem restarting_exit_agrees_with_pending_default {ω ε : Type} (j : JobRef)
    (a b : Action) (haR : a ≠ RestartJobAction) (haA : a ≠ AbortJobAction)
    (haC : a ≠ CompleteJobAction) (s : JobStatus) (hs : s.Terminating = 0)
    (h : Collaborators ω ε) (w : World ω) :
    ∃ c1 c2 : Call,
      (((pendingState.mk j).Execute a : Prog ε).run h w).calls = [c1] ∧
      (((restartingState.mk j).Execute b : Prog ε).run h w).calls = [c2] ∧
      c1.callee = Callee.SyncJob ∧ c2.callee = Callee.SyncJob ∧
      ∀ heap : Heap,
        (c1.fn heap s).Phase = (c2.fn heap s).Phase ∧
        (c2.fn heap s).Phase
          = if (heap j).Job.Spec.MinAvailable ≤ s.Running then JobPhase.Running
            else JobPhase.Pending := by
  rw [pendingState_Execute_default _ a haR haA haC]
  refine ⟨_, _, rfl, rfl, rfl, rfl, ?_⟩
  intro heap
  simp [hs]

/-- An instance of C11: job with `MinAvailable = 3`, status `Running = 2`,
`Terminating = 0`; the Pending default path (empty action) and the Restarting
state (Restart action) each hand one policy to `SyncJob`, and both policies
give `Pending`. -/
theorem restarting_exit_agrees_with_pending_default_witness :
    ((("" : Action) ≠ RestartJobAction ∧ ("" : Action) ≠ AbortJobAction ∧
        ("" : Action) ≠ CompleteJobAction) ∧
      (sampleStatus JobPhase.Restarting 2 0).Terminating = 0) ∧
    ∃ c1 c2 : Call,
      (((pendingState.mk 0).Execute "" : Prog String).run sampleCollaborators
        (sampleWorld false 3 (sampleStatus JobPhase.Restarting 2 0))).calls = [c1] ∧
      (((restartingState.mk 0).Execute RestartJobAction : Prog String).run
          sampleCollaborators
          (sampleWorld false 3 (sampleStatus JobPhase.Restarting 2 0))).calls = [c2] ∧
      (c1.fn (sampleWorld false 3 (sampleStatus JobPhase.Restarting 2 0)).jobs
          (sampleStatus JobPhase.Restarting 2 0)).Phase = JobPhase.Pending ∧
      (c2.fn (sampleWorld false 3 (sampleStatus JobPhase.Restarting 2 0)).jobs
          (sampleStatus JobPhase.Restarting 2 0)).Phase = JobPhase.Pending :=
  ⟨by decide,
   Exists.elim
    (restarting_exit_agrees_with_pending_default 0 "" RestartJobAction (by decide) (by decide)
      (by decide) (sampleStatus JobPhase.Restarting 2 0) (by decide) sampleCollaborators
      (sampleWorld false 3 (sampleStatus JobPhase.Restarting 2 0)))
    (fun c1 hc1 => Exists.elim hc1 (fun c2 hc2 =>
      ⟨c1, c2, hc2.1, hc2.2.1,
       ((hc2.2.2.2.2
          (sampleWorld false 3 (sampleStatus JobPhase.Restarting 2 0)).jobs).1).trans
         ((hc2.2.2.2.2
          (sampleWorld false 3 (sampleStatus JobPhase.Restarting 2 0)).jobs).2.trans
           (by decide)),
       (hc2.2.2.2.2
          (sampleWorld false 3 (sampleStatus JobPhase.Restarting 2 0)).jobs).2.trans
         (by decide)⟩))⟩

/-- C12. A state never sets the phase itself: for both states and every action,
`Execute` makes exactly one call and the job objects after `Execute` are
exactly the ones that call left; so when `SyncJob` and `KillJob` leave the job
they are given unchanged, the state's job after `Execute` is equal, in its
phase and in every other field, to the job before. -/
theorem execute_changes_job_only_through_call {ω ε : Type} (ps : pendingState)
    (rs : restartingState) (action : Action) (h : Collaborators ω ε) (w : World ω) :
    (∃ c : Call,
      ((ps.Execute action : Prog ε).run h w).calls = [c] ∧
      ((ps.Execute action : Prog ε).run h w).world.jobs = (h.invoke c w).2.jobs) ∧
    (∃ c : Call,
      ((rs.Execute action : Prog ε).run h w).calls = [c] ∧
      ((rs.Execute action : Prog ε).run h w).world.jobs = (h.invoke c w).2.jobs) ∧
    ((∀ (j : JobRef) (f : UpdateStatusFn) (v : World ω),
        (h.SyncJob j f v).2.jobs j = v.jobs j ∧ (h.KillJob j f v).2.jobs j = v.jobs j) →
      ((ps.Execute action : Prog ε).run h w).world.jobs ps.job = w.jobs ps.job ∧
      ((rs.Execute action : Prog ε).run h w).world.jobs rs.job = w.jobs rs.job) := by
  refine ⟨?_, ⟨_, rfl, rfl⟩, ?_⟩
  · unfold pendingState.Execute
    split_ifs <;> exact ⟨_, rfl, rfl⟩
  · intro hid
    constructor
    · unfold pendingState.Execute
      split_ifs
      · exact (hid _ _ w).2
      · exact (hid _ _ w).2
      · exact (hid _ _ w).2
      · exact (hid _ _ w).1
    · exact (hid _ _ w).1

/-- An instance of C12: with collaborators that do nothing, `Execute` with the
Complete action leaves a `Pending` job (`MinAvailable = 3`, `Running = 0`,
`Terminating = 0`) exactly as it was, although the policy handed over would
return `Completed`. -/
theorem execute_changes_job_only_through_call_witness :
    (((pendingState.mk 0).Execute CompleteJobAction : Prog String).run idleCollaborators
        (idleWorld 3 (sampleStatus JobPhase.Pending 0 0))).world.jobs 0
      = (idleWorld 3 (sampleStatus JobPhase.Pending 0 0)).jobs 0 :=
  ((execute_changes_job_only_through_call (pendingState.mk 0) (restartingState.mk 0)
      CompleteJobAction idleCollaborators (idleWorld 3 (sampleStatus JobPhase.Pending 0 0))).2.2
    (fun _ _ _ => ⟨rfl, rfl⟩)).1

/-- C16. No Pending/Restarting oscillation on an unchanged snapshot, for one job
in one heap: (1) if the policy of `pendingState.Execute` (any action) returns
`Restarting` on a status, the policy of `restartingState.Execute` (any action)
returns `Restarting` on it; (2) if the policy of `restartingState.Execute`
returns `Pending` on a status, the policy of `pendingState.Execute` returns
`Pending` on it for every action other than Complete, and (3) for no action at
all does it return `Restarting` there. -/
theorem no_pending_restarting_oscillation {ω ε : Type} (j : JobRef) (a b : Action)
    (h : Collaborators ω ε) (w : World ω) (heap : Heap) (s : JobStatus) :
    (∀ c1 ∈ (((pendingState.mk j).Execute a : Prog ε).run h w).calls,
      (c1.fn heap s).Phase = JobPhase.Restarting →
      ∀ c2 ∈ (((restartingState.mk j).Execute b : Prog ε).run h w).calls,
        (c2.fn heap s).Phase = JobPhase.Restarting) ∧
    (∀ c2 ∈ (((restartingState.mk j).Execute b : Prog ε).run h w).calls,
      (c2.fn heap s).Phase = JobPhase.Pending →
      a ≠ CompleteJobAction →
      ∀ c1 ∈ (((pendingState.mk j).Execute a : Prog ε).run h w).calls,
        (c1.fn heap s).Phase = JobPhase.Pending) ∧
    (∀ c2 ∈ (((restartingState.mk j).Execute b : Prog ε).run h w).calls,
      (c2.fn heap s).Phase = JobPhase.Pending →
      ∀ c1 ∈ (((pendingState.mk j).Execute a : Prog ε).run h w).calls,
        (c1.fn heap s).Phase ≠ JobPhase.Restarting) := by
  refine ⟨?_, ?_, ?_⟩
  · intro c1 hc1 hp c2 hc2
    simp only [restartingState.Execute, Prog.run, List.mem_singleton] at hc2
    subst hc2
    unfold pendingState.Execute at hc1
    split_ifs at hc1 <;>
      simp only [Prog.run, List.mem_singleton] at hc1 <;> subst hc1
    · by_cases ht : s.Terminating = 0 <;> simp [ht] at hp ⊢
    · by_cases ht : s.Terminating = 0 <;> simp [ht] at hp
    · by_cases ht : s.Terminating = 0 <;> simp [ht] at hp
    · by_cases hm : (heap j).Job.Spec.MinAvailable ≤ s.Running <;> simp [hm] at hp
  · intro c2 hc2 hp hC c1 hc1
    simp only [restartingState.Execute, Prog.run, List.mem_singleton] at hc2
    subst hc2
    have ht : s.Terminating = 0 := by
      by_contra hne
      simp [hne] at hp
    have hm : ¬ (heap j).Job.Spec.MinAvailable ≤ s.Running := by
      intro hle
      simp [ht, hle] at hp
    unfold pendingState.Execute at hc1
    split_ifs at hc1 <;>
      simp only [Prog.run, List.mem_singleton] at hc1 <;> subst hc1
    · simp [ht]
    · simp [ht]
    · simp [hm]
  · intro c2 hc2 hp c1 hc1
    simp only [restartingState.Execute, Prog.run, List.mem_singleton] at hc2
    subst hc2
    have ht : s.Terminating = 0 := by
      by_contra hne
      simp [hne] at hp
    unfold pendingState.Execute at hc1
    split_ifs at hc1 <;>
      simp only [Prog.run, List.mem_singleton] at hc1 <;> subst hc1
    · simp [ht]
    · simp [ht]
    · simp [ht]
    · by_cases hm : (heap j).Job.Spec.MinAvailable ≤ s.Running <;> simp [hm]

/-- An instance of C16 (1): `MinAvailable = 3`, status `Running = 1`,
`Terminating = 2`; the Restart policy of the Pending state returns
`Restarting`, and so does the policy of the Restarting state. -/
theorem no_pending_restarting_oscillation_witness :
    (∀ c1 ∈ (((pendingState.mk 0).Execute RestartJobAction : Prog String).run
          sampleCollaborators
          (sampleWorld false 3 (sampleStatus JobPhase.Pending 1 2))).calls,
      (c1.fn (sampleWorld false 3 (sampleStatus JobPhase.Pending 1 2)).jobs
          (sampleStatus JobPhase.Pending 1 2)).Phase = JobPhase.Restarting) ∧
    (∀ c2 ∈ (((restartingState.mk 0).Execute "" : Prog String).run sampleCollaborators
          (sampleWorld false 3 (sampleStatus JobPhase.Pending 1 2))).calls,
      (c2.fn (sampleWorld false 3 (sampleStatus JobPhase.Pending 1 2)).jobs
          (sampleStatus JobPhase.Pending 1 2)).Phase = JobPhase.Restarting) :=
  ⟨fun c1 hc1 => by
      simp only [pendingState.Execute, Prog.run, List.mem_singleton, if_true] at hc1
      subst hc1
      decide,
   (no_pending_restarting_oscillation 0 RestartJobAction "" sampleCollaborators
      (sampleWorld false 3 (sampleStatus JobPhase.Pending 1 2))
      (sampleWorld false 3 (sampleStatus JobPhase.Pending 1 2)).jobs
      (sampleStatus JobPhase.Pending 1 2)).1
      { callee := Callee.KillJob, job := 0,
        fn := fun _ status =>
          { Phase := if status.Terminating ≠ 0 then JobPhase.Restarting
                     else JobPhase.Pending } }
      (List.mem_singleton.mpr rfl) (by decide)⟩

/-- C17. Pending's default path ignores `Terminating`: for every action other
than the three recognised ones, `pendingState.Execute` makes exactly one call,
to `SyncJob`, and the policy handed over returns the same phase on any two
statuses with equal `Running`, whatever their `Terminating`; on every status
with `Terminating ≠ 0` and `MinAvailable ≤ Running` it returns `Running`.
`restartingState.Execute` for the same job (any action) makes exactly one
call, to `SyncJob`, and its policy returns `Restarting` on every status with
`Terminating ≠ 0`. -/
theorem pending_default_ignores_terminating {ω ε : Type} (j : JobRef) (a b : Action)
    (haR : a ≠ RestartJobAction) (haA : a ≠ AbortJobAction) (haC : a ≠ CompleteJobAction)
    (s1 s2 : JobStatus) (hrun : s1.Running = s2.Running)
    (h : Collaborators ω ε) (w : World ω) :
    (∃ c : Call,
      (((pendingState.mk j).Execute a : Prog ε).run h w).calls = [c] ∧
      c.callee = Callee.SyncJob ∧
      ∀ heap : Heap,
        (c.fn heap s1).Phase = (c.fn heap s2).Phase ∧
        ∀ s : JobStatus, s.Terminating ≠ 0 → (heap j).Job.Spec.MinAvailable ≤ s.Running →
          (c.fn heap s).Phase = JobPhase.Running) ∧
    (∃ c : Call,
      (((restartingState.mk j).Execute b : Prog ε).run h w).calls = [c] ∧
      c.callee = Callee.SyncJob ∧
      ∀ (heap : Heap) (s : JobStatus), s.Terminating ≠ 0 →
        (c.fn heap s).Phase = JobPhase.Restarting) := by
  rw [pendingState_Execute_default _ a haR haA haC]
  refine ⟨⟨_, rfl, rfl, ?_⟩, ⟨_, rfl, rfl, ?_⟩⟩
  · intro heap
    refine ⟨?_, ?_⟩
    · simp [hrun]
    · intro s _ hm
      simp [hm]
  · intro heap s ht
    simp [ht]

/-- An instance of C17: `MinAvailable = 3`; the statuses `Running = 3`,
`Terminating = 0` and `Running = 3`, `Terminating = 5` get the same phase from
the default policy of the Pending state; on the second one that policy returns
`Running` and the sample collaborator commits `Running`, although five tasks
are still terminating, while the policy of the Restarting state returns
`Restarting` on it. -/
theorem pending_default_ignores_terminating_witness :
    ((("" : Action) ≠ RestartJobAction ∧ ("" : Action) ≠ AbortJobAction ∧
        ("" : Action) ≠ CompleteJobAction) ∧
      (sampleStatus JobPhase.Pending 3 0).Running = (sampleStatus JobPhase.Pending 3 5).Running ∧
      (sampleStatus JobPhase.Pending 3 5).Terminating ≠ 0) ∧
    (∃ c : Call,
      (((pendingState.mk 0).Execute "" : Prog String).run sampleCollaborators
          (sampleWorld false 3 (sampleStatus JobPhase.Pending 3 5))).calls = [c] ∧
      (c.fn (sampleWorld false 3 (sampleStatus JobPhase.Pending 3 5)).jobs
          (sampleStatus JobPhase.Pending 3 0)).Phase
        = (c.fn (sampleWorld false 3 (sampleStatus JobPhase.Pending 3 5)).jobs
          (sampleStatus JobPhase.Pending 3 5)).Phase ∧
      (c.fn (sampleWorld false 3 (sampleStatus JobPhase.Pending 3 5)).jobs
          (sampleStatus JobPhase.Pending 3 5)).Phase = JobPhase.Running) ∧
    (∃ c : Call,
      (((restartingState.mk 0).Execute "" : Prog String).run sampleCollaborators
          (sampleWorld false 3 (sampleStatus JobPhase.Pending 3 5))).calls = [c] ∧
      (c.fn (sampleWorld false 3 (sampleStatus JobPhase.Pending 3 5)).jobs
          (sampleStatus JobPhase.Pending 3 5)).Phase = JobPhase.Restarting) ∧
    (((pendingState.mk 0).Execute "" : Prog String).run sampleCollaborators
        (sampleWorld false 3 (sampleStatus JobPhase.Pending 3 5))).world.phaseOf 0
      = JobPhase.Running :=
  ⟨by decide,
   Exists.elim
    (pending_default_ignores_terminating 0 "" "" (by decide) (by decide) (by decide)
      (sampleStatus JobPhase.Pending 3 0) (sampleStatus JobPhase.Pending 3 5) (by decide)
      sampleCollaborators (sampleWorld false 3 (sampleStatus JobPhase.Pending 3 5))).1
    (fun c hc =>
      ⟨c, hc.1,
       (hc.2.2 (sampleWorld false 3 (sampleStatus JobPhase.Pending 3 5)).jobs).1,
       (hc.2.2 (sampleWorld false 3 (sampleStatus JobPhase.Pending 3 5)).jobs).2
         (sampleStatus JobPhase.Pending 3 5) (by decide) (by decide)⟩),
   Exists.elim
    (pending_default_ignores_terminating 0 "" "" (by decide) (by decide) (by decide)
      (sampleStatus JobPhase.Pending 3 0) (sampleStatus JobPhase.Pending 3 5) (by decide)
      sampleCollaborators (sampleWorld false 3 (sampleStatus JobPhase.Pending 3 5))).2
    (fun c hc =>
      ⟨c, hc.1,
       hc.2.2 (sampleWorld false 3 (sampleStatus JobPhase.Pending 3 5)).jobs
         (sampleStatus JobPhase.Pending 3 5) (by decide)⟩),
   by decide⟩

/-- C18. Kill-path policies depend only on `Terminating`: for each of the
actions Restart, Abort, Complete, any two jobs, any two heaps (so any
`MinAvailable` values) and any two statuses that agree on whether
`Terminating` is zero, the policies `pendingState.Execute` passes to `KillJob`
return the same phase; and on no status and in no heap do they return
`Running`. -/
theorem kill_policies_depend_only_on_terminating {ω ε : Type} (action : Action)
    (hact : action = RestartJobAction ∨ action = AbortJobAction ∨ action = CompleteJobAction)
    (ps1 ps2 : pendingState) (h : Collaborators ω ε) (w1 w2 : World ω)
    (heap1 heap2 : Heap) (s1 s2 : JobStatus)
    (hT : s1.Terminating = 0 ↔ s2.Terminating = 0) :
    (∀ c1 ∈ ((ps1.Execute action : Prog ε).run h w1).calls,
      ∀ c2 ∈ ((ps2.Execute action : Prog ε).run h w2).calls,
        c1.callee = Callee.KillJob ∧ c2.callee = Callee.KillJob ∧
        (c1.fn heap1 s1).Phase = (c2.fn heap2 s2).Phase) ∧
    (∀ c ∈ ((ps1.Execute action : Prog ε).run h w1).calls,
      ∀ (heap : Heap) (s : JobStatus), (c.fn heap s).Phase ≠ JobPhase.Running) := by
  have hAR : AbortJobAction ≠ RestartJobAction := by decide
  have hCR : CompleteJobAction ≠ RestartJobAction := by decide
  have hCA : CompleteJobAction ≠ AbortJobAction := by decide
  rcases hact with ha | ha | ha <;> subst ha
  · refine ⟨?_, ?_⟩
    · intro c1 hc1 c2 hc2
      simp only [pendingState.Execute, if_true, Prog.run, List.mem_singleton] at hc1 hc2
      subst hc1
      subst hc2
      by_cases h1 : s1.Terminating = 0
      · simp [h1, hT.mp h1]
      · have h2 : ¬ s2.Terminating = 0 := fun h2 => h1 (hT.mpr h2)
        simp [h1, h2]
    · intro c hc heap s
      simp only [pendingState.Execute, if_true, Prog.run, List.mem_singleton] at hc
      subst hc
      by_cases h1 : s.Terminating = 0 <;> simp [h1]
  · refine ⟨?_, ?_⟩
    · intro c1 hc1 c2 hc2
      simp only [pendingState.Execute, hAR, if_false, if_true, Prog.run,
        List.mem_singleton] at hc1 hc2
      subst hc1
      subst hc2
      by_cases h1 : s1.Terminating = 0
      · simp [h1, hT.mp h1]
      · have h2 : ¬ s2.Terminating = 0 := fun h2 => h1 (hT.mpr h2)
        simp [h1, h2]
    · intro c hc heap s
      simp only [pendingState.Execute, hAR, if_false, if_true, Prog.run,
        List.mem_singleton] at hc
      subst hc
      by_cases h1 : s.Terminating = 0 <;> simp [h1]
  · refine ⟨?_, ?_⟩
    · intro c1 hc1 c2 hc2
      simp only [pendingState.Execute, hCR, hCA, if_false, if_true, Prog.run,
        List.mem_singleton] at hc1 hc2
      subst hc1
      subst hc2
      by_cases h1 : s1.Terminating = 0
      · simp [h1, hT.mp h1]
      · have h2 : ¬ s2.Terminating = 0 := fun h2 => h1 (hT.mpr h2)
        simp [h1, h2]
    · intro c hc heap s
      simp only [pendingState.Execute, hCR, hCA, if_false, if_true, Prog.run,
        List.mem_singleton] at hc
      subst hc
      by_cases h1 : s.Terminating = 0 <;> simp [h1]

/-- An instance of C18: the Restart action on two jobs, one with
`MinAvailable = 3` and status `Running = 5`, `Terminating = 0`, the other with
`MinAvailable = 1` and status `Running = 0`, `Terminating = 0`; both policies
return the same phase, and the sample collaborator leaves the first job
`Pending` although `Running ≥ MinAvailable`. -/
theorem kill_policies_depend_only_on_terminating_witness :
    ((RestartJobAction = RestartJobAction ∨ RestartJobAction = AbortJobAction ∨
        RestartJobAction = CompleteJobAction) ∧
      ((sampleStatus JobPhase.Pending 5 0).Terminating = 0 ↔
        (sampleStatus JobPhase.Pending 0 0).Terminating = 0)) ∧
    (∀ c1 ∈ (((pendingState.mk 0).Execute RestartJobAction : Prog String).run
          sampleCollaborators (sampleWorld false 3 (sampleStatus JobPhase.Pending 5 0))).calls,
      ∀ c2 ∈ (((pendingState.mk 1).Execute RestartJobAction : Prog String).run
          sampleCollaborators (sampleWorld false 1 (sampleStatus JobPhase.Pending 0 0))).calls,
        c1.callee = Callee.KillJob ∧ c2.callee = Callee.KillJob ∧
        (c1.fn (sampleWorld false 3 (sampleStatus JobPhase.Pending 5 0)).jobs
            (sampleStatus JobPhase.Pending 5 0)).Phase
          = (c2.fn (sampleWorld false 1 (sampleStatus JobPhase.Pending 0 0)).jobs
            (sampleStatus JobPhase.Pending 0 0)).Phase) ∧
    (((pendingState.mk 0).Execute RestartJobAction : Prog String).run sampleCollaborators
        (sampleWorld false 3 (sampleStatus JobPhase.Pending 5 0))).world.phaseOf 0
      = JobPhase.Pending :=
  ⟨by decide,
   (kill_policies_depend_only_on_terminating RestartJobAction (Or.inl rfl)
      (pendingState.mk 0) (pendingState.mk 1) sampleCollaborators
      (sampleWorld false 3 (sampleStatus JobPhase.Pending 5 0))
      (sampleWorld false 1 (sampleStatus JobPhase.Pending 0 0))
      (sampleWorld false 3 (sampleStatus JobPhase.Pending 5 0)).jobs
      (sampleWorld false 1 (sampleStatus JobPhase.Pending 0 0)).jobs
      (sampleStatus JobPhase.Pending 5 0) (sampleStatus JobPhase.Pending 0 0) (by decide)).1,
   by decide⟩

/-- C19. Monotonicity of readiness: take two statuses with equal `Terminating`
and `s1.Running ≤ s2.Running`, and two heaps in which the job's `MinAvailable`
is `m1 ≥ m2`.  If the default policy of the Pending state returns `Running` on
`s1` with `m1`, it returns `Running` on `s2` with `m2`; and the same holds for
the policy of the Restarting state. -/
theorem readiness_is_monotone {ω ε : Type} (j : JobRef) (a b : Action)
    (haR : a ≠ RestartJobAction) (haA : a ≠ AbortJobAction) (haC : a ≠ CompleteJobAction)
    (s1 s2 : JobStatus) (hT : s1.Terminating = s2.Terminating)
    (hrun : s1.Running ≤ s2.Running) (heap1 heap2 : Heap)
    (hm : (heap1 j).Job.Spec.MinAvailable ≥ (heap2 j).Job.Spec.MinAvailable)
    (h : Collaborators ω ε) (w1 w2 : World ω) :
    (∀ c1 ∈ (((pendingState.mk j).Execute a : Prog ε).run h w1).calls,
      ∀ c2 ∈ (((pendingState.mk j).Execute a : Prog ε).run h w2).calls,
        (c1.fn heap1 s1).Phase = JobPhase.Running →
        (c2.fn heap2 s2).Phase = JobPhase.Running) ∧
    (∀ c1 ∈ (((restartingState.mk j).Execute b : Prog ε).run h w1).calls,
      ∀ c2 ∈ (((restartingState.mk j).Execute b : Prog ε).run h w2).calls,
        (c1.fn heap1 s1).Phase = JobPhase.Running →
        (c2.fn heap2 s2).Phase = JobPhase.Running) := by
  refine ⟨?_, ?_⟩
  · intro c1 hc1 c2 hc2 hp
    simp only [pendingState.Execute, haR, haA, haC, if_false, Prog.run,
      List.mem_singleton] at hc1 hc2
    subst hc1
    subst hc2
    have h1 : (heap1 j).Job.Spec.MinAvailable ≤ s1.Running := by
      by_contra hn
      simp [hn] at hp
    have h2 : (heap2 j).Job.Spec.MinAvailable ≤ s2.Running := le_trans (le_trans hm h1) hrun
    simp [h2]
  · intro c1 hc1 c2 hc2 hp
    simp only [restartingState.Execute, Prog.run, List.mem_singleton] at hc1 hc2
    subst hc1
    subst hc2
    have ht : s1.Terminating = 0 := by
      by_contra hn
      simp [hn] at hp
    have h1 : (heap1 j).Job.Spec.MinAvailable ≤ s1.Running := by
      by_contra hn
      simp [ht, hn] at hp
    have h2 : (heap2 j).Job.Spec.MinAvailable ≤ s2.Running := le_trans (le_trans hm h1) hrun
    have ht2 : s2.Terminating = 0 := hT ▸ ht
    simp [ht2, h2]

/-- An instance of C19 for the Restarting state: with `MinAvailable = 3` the
policy returns `Running` on `Running = 3`, `Terminating = 0`, and therefore
with `MinAvailable = 2` it returns `Running` on `Running = 4`,
`Terminating = 0`. -/
theorem readiness_is_monotone_witness :
    ((("" : Action) ≠ RestartJobAction ∧ ("" : Action) ≠ AbortJobAction ∧
        ("" : Action) ≠ CompleteJobAction) ∧
      (sampleStatus JobPhase.Restarting 3 0).Terminating
        = (sampleStatus JobPhase.Restarting 4 0).Terminating ∧
      (sampleStatus JobPhase.Restarting 3 0).Running
        ≤ (sampleStatus JobPhase.Restarting 4 0).Running ∧
      ((sampleWorld false 3 (sampleStatus JobPhase.Restarting 3 0)).jobs 0).Job.Spec.MinAvailable
        ≥ ((sampleWorld false 2 (sampleStatus JobPhase.Restarting 4 0)).jobs 0).Job.Spec.MinAvailable) ∧
    ∀ c2 ∈ (((restartingState.mk 0).Execute "" : Prog String).run sampleCollaborators
        (sampleWorld false 2 (sampleStatus JobPhase.Restarting 4 0))).calls,
      (c2.fn (sampleWorld false 2 (sampleStatus JobPhase.Restarting 4 0)).jobs
          (sampleStatus JobPhase.Restarting 4 0)).Phase = JobPhase.Running :=
  ⟨by decide,
   fun c2 hc2 =>
    (readiness_is_monotone 0 "" "" (by decide) (by decide) (by decide)
      (sampleStatus JobPhase.Restarting 3 0) (sampleStatus JobPhase.Restarting 4 0)
      (by decide) (by decide)
      (sampleWorld false 3 (sampleStatus JobPhase.Restarting 3 0)).jobs
      (sampleWorld false 2 (sampleStatus JobPhase.Restarting 4 0)).jobs (by decide)
      sampleCollaborators (sampleWorld false 3 (sampleStatus JobPhase.Restarting 3 0))
      (sampleWorld false 2 (sampleStatus JobPhase.Restarting 4 0))).2
      { callee := Callee.SyncJob, job := 0,
        fn := fun heap status =>
          { Phase :=
              if status.Terminating = 0 then
                if status.Running ≥ (heap 0).Job.Spec.MinAvailable then JobPhase.Running
                else JobPhase.Pending
              else JobPhase.Restarting } }
      (List.mem_singleton.mpr rfl) c2 hc2 (by decide)⟩

end state

namespace app

open v1beta1

/-- C13. Admission response construction: when the review `ar` has a request
`req`, `createResponse` with a non-nil review response `r` returns a review
whose `Response` is `r` with `UID` replaced by `req.UID` (all other fields of
`r` as they were), and leaves `ar` with `Request.Object` and
`Request.OldObject` empty and every other field as it was; with a nil review
response the returned review has no `Response`, also for any other review on
which `createResponse` returns. -/
theorem createResponse_copies_uid_and_strips_payloads (r : AdmissionResponse)
    (ar : AdmissionReview) (req : AdmissionRequest) (hreq : ar.Request = some req) :
    createResponse (some r) ar
      = Except.ok
          { response :=
              { Kind := "", APIVersion := "", Request := none,
                Response := some { r with UID := req.UID } }
            ar :=
              { ar with
                Request := some { req with Object := { Raw := [], Object := none },
                                           OldObject := { Raw := [], Object := none } } } } ∧
    createResponse none ar
      = Except.ok
          { response := { Kind := "", APIVersion := "", Request := none, Response := none }
            ar :=
              { ar with
                Request := some { req with Object := { Raw := [], Object := none },
                                           OldObject := { Raw := [], Object := none } } } } ∧
    ∀ (ar2 : AdmissionReview) (res : Created),
      createResponse none ar2 = Except.ok res → res.response.Response = none := by
  refine ⟨?_, ?_, ?_⟩
  · simp [createResponse, hreq, bind, Except.bind, pure, Except.pure]
  · simp [createResponse, hreq, bind, Except.bind, pure, Except.pure]
  · intro ar2 res hres
    cases hr2 : ar2.Request with
    | none => simp [createResponse, hr2, bind, Except.bind, pure, Except.pure] at hres
    | some q =>
      simp [createResponse, hr2, bind, Except.bind, pure, Except.pure] at hres
      rw [← hres]

/-- An instance of C13: the sample decision for the sample review; the
returned response carries the request's UID `"uid-1"` and keeps its patch, and
the request has lost both payloads but kept its name. -/
theorem createResponse_copies_uid_and_strips_payloads_witness :
    sampleReview.Request = some sampleRequest ∧
    createResponse (some sampleDecision) sampleReview
      = Except.ok
          { response :=
              { Kind := "", APIVersion := "", Request := none,
                Response := some { UID := "uid-1", Allowed := true, Result := none,
                                   Patch := [7], PatchType := some "JSONPatch",
                                   AuditAnnotations := [] } }
            ar :=
              { Kind := "AdmissionReview", APIVersion := "admission.k8s.io/v1beta1",
                Request := some { UID := "uid-1", Kind := "Job", Resource := "jobs",
                                  SubResource := "", Name := "j1", Namespace := "default",
                                  Operation := "CREATE", UserInfo := "admin",
                                  Object := { Raw := [], Object := none },
                                  OldObject := { Raw := [], Object := none },
                                  DryRun := none }
                Response := none } } :=
  ⟨rfl,
   (createResponse_copies_uid_and_strips_payloads sampleDecision sampleReview sampleRequest
      rfl).1⟩

/-- C14. Content-Type gate: when `r.Header.Get("Content-Type")` is not exactly
`"application/json"`, `Serve` does not invoke `admit` and passes nothing to
`w.Write`; when it is exactly `"application/json"` and the body decodes (the
deserializer returns a nil error, leaving the review `ar`), `Serve` invokes
`admit` exactly once, on `ar`. -/
theorem serve_content_type_gate {ε : Type} (env : Env ε) (r : Request) (admitFn : AdmitFunc) :
    (r.Header.Get CONTENTTYPE ≠ APPLICATIONJSON →
      (Serve env r admitFn).admitCalls = [] ∧ (Serve env r admitFn).written = []) ∧
    (r.Header.Get CONTENTTYPE = APPLICATIONJSON →
      ∀ ar : AdmissionReview, env.Decode r.readBody = (none, ar) →
        (Serve env r admitFn).admitCalls = [ar]) := by
  refine ⟨?_, ?_⟩
  · intro hct
    simp [Serve, hct]
  · intro hct ar hdec
    unfold Serve
    simp only [hct, ne_eq, not_true_eq_false, if_false, hdec]
    cases createResponse (admitFn ar) ar <;> rfl

/-- Instances of C14 with the sample environment: a header value with a
charset parameter and an absent header are both turned away without a call of
`admit` or a write; with the exact value and a body that decodes, `admit` is
invoked once, on the decoded review. -/
theorem serve_content_type_gate_witness :
    ((sampleHTTP [123, 125] ["application/json; charset=utf-8"]).Header.Get CONTENTTYPE
        ≠ APPLICATIONJSON ∧
      (Serve sampleEnv (sampleHTTP [123, 125] ["application/json; charset=utf-8"])
          sampleAdmit).admitCalls = [] ∧
      (Serve sampleEnv (sampleHTTP [123, 125] ["application/json; charset=utf-8"])
          sampleAdmit).written = []) ∧
    ((sampleHTTP [123, 125] []).Header.Get CONTENTTYPE ≠ APPLICATIONJSON ∧
      (Serve sampleEnv (sampleHTTP [123, 125] []) sampleAdmit).admitCalls = [] ∧
      (Serve sampleEnv (sampleHTTP [123, 125] []) sampleAdmit).written = []) ∧
    ((sampleHTTP [123, 125] ["application/json"]).Header.Get CONTENTTYPE = APPLICATIONJSON ∧
      sampleEnv.Decode (sampleHTTP [123, 125] ["application/json"]).readBody
        = (none, sampleReview) ∧
      (Serve sampleEnv (sampleHTTP [123, 125] ["application/json"]) sampleAdmit).admitCalls
        = [sampleReview]) :=
  ⟨⟨by decide,
    (serve_content_type_gate sampleEnv
      (sampleHTTP [123, 125] ["application/json; charset=utf-8"]) sampleAdmit).1 (by decide)⟩,
   ⟨by decide,
    (serve_content_type_gate sampleEnv (sampleHTTP [123, 125] []) sampleAdmit).1 (by decide)⟩,
   ⟨by decide, rfl,
    (serve_content_type_gate sampleEnv (sampleHTTP [123, 125] ["application/json"])
      sampleAdmit).2 (by decide) sampleReview rfl⟩⟩

/-- C15, what the code does.  A request with `Content-Type: application/json`
whose body (the two bytes of `no`) does not decode, so that the review is left
without a `Request`: `Serve` does not invoke `admit`, ends in a nil
dereference inside `createResponse` and has written nothing, although the
error response was built.  And `createResponse` faults on every review whose
`Request` is nil, for a nil and for a non-nil review response alike. -/
theorem serve_faults_on_undecodable_body :
    sampleEnv.Decode (sampleHTTP [110, 111] ["application/json"]).readBody
      = (some "couldn't get version/kind",
          { Kind := "", APIVersion := "", Request := none, Response := none }) ∧
    Serve sampleEnv (sampleHTTP [110, 111] ["application/json"]) sampleAdmit
      = { admitCalls := [], written := [], fault := some Fault.nilDereference } ∧
    (∀ (rr : Option AdmissionResponse) (kind api : String) (resp : Option AdmissionResponse),
      createResponse rr { Kind := kind, APIVersion := api, Request := none, Response := resp }
        = Except.error Fault.nilDereference) := by
  refine ⟨rfl, by decide, ?_⟩
  intro rr kind api resp
  cases rr <;> rfl

end app
